import Mathlib

/-!
Verification development for the voice-ordering chat application
(conversational cashier). The definitions below are shallow embeddings of
the application's source code:

* `src/components/chat/ChatInterface.tsx` — turn controller / orchestrator
  (`RECEIPT_REGEX`, `parseReceipt`, `stripReceiptBlock`, `activateMic`,
  `onTtsEnd`, `handleSend`, `handleStartListening`, `onFinalSpeech`, ...);
* `src/hooks/useTextToSpeech.ts` — speech playback adapter (`speak`/`stop`);
* `src/hooks/useSpeechRecognition.ts` — speech capture adapter;
* `src/lib/order-service.ts` — persistence gateway (`saveOrder`,
  `updateOrder`, `toItemRows`).

Strings are modelled as `List Char`; JavaScript numbers that the code only
passes through (prices) are modelled as `ℚ`.
-/

set_option maxRecDepth 16384

/-- Membership in the JavaScript `\s` character class (also the class used by
`String.prototype.trim`): tab, LF, VT, FF, CR, space, NBSP, and the Unicode
white-space code points. -/
def isJsSpace (c : Char) : Bool :=
  let n := c.toNat
  n = 9 || n = 10 || n = 11 || n = 12 || n = 13 || n = 32 || n = 160 ||
  n = 5760 || (8192 ≤ n && n ≤ 8202) || n = 8232 || n = 8233 || n = 8239 ||
  n = 8287 || n = 12288 || n = 65279

/-- JavaScript `String.prototype.trim`: remove leading and trailing
white-space characters. -/
def jsTrim (s : List Char) : List Char :=
  ((s.dropWhile isJsSpace).reverse.dropWhile isJsSpace).reverse

/-- Match a literal pattern at the front of a list; on success return the
remainder after the pattern. -/
def dropLit : List Char → List Char → Option (List Char)
  | [], s => some s
  | _ :: _, [] => none
  | p :: ps, c :: cs => if c = p then dropLit ps cs else none

/-- Opening fence of the receipt block recognised by `RECEIPT_REGEX`. -/
def fenceOpen : String := "```json"

/-- Closing fence of the receipt block recognised by `RECEIPT_REGEX`. -/
def fenceClose : String := "```"

/-- The character left brace. -/
def lbrace : Char := Char.ofNat 123

/-- The character right brace. -/
def rbrace : Char := Char.ofNat 125

/-- Lazy scan for the body of the group `(\{[\s\S]*?\})` followed by
`\s*` and the closing fence, exactly as the backtracking regex engine
resolves the non-greedy quantifier: at each position first try to place the
closing `\}` (succeeding only if `\s*`+"```" matches after it), otherwise
consume the character into the group body and continue. Returns the group
body (without braces) and the text after the closing fence. -/
def lazyBody (acc : List Char) : List Char → Option (List Char × List Char)
  | [] => none
  | c :: rest =>
    if c = rbrace then
      match dropLit fenceClose.data (rest.dropWhile isJsSpace) with
      | some after => some (acc.reverse, after)
      | none => lazyBody (c :: acc) rest
    else lazyBody (c :: acc) rest

/-- Try to match `RECEIPT_REGEX` anchored at the start of `s`:
"```json" `\s*` `(\{[\s\S]*?\})` `\s*` "```". Returns the capture group
(with braces) and the remainder after the whole match. The greedy `\s*`
before a literal that starts with a non-space character is equivalent to
skipping the maximal white-space run. -/
def matchFenceAt (s : List Char) : Option (List Char × List Char) :=
  match dropLit fenceOpen.data s with
  | none => none
  | some r1 =>
    match r1.dropWhile isJsSpace with
    | [] => none
    | c :: body =>
      if c = lbrace then
        match lazyBody [] body with
        | some (content, after) => some (lbrace :: (content ++ [rbrace]), after)
        | none => none
      else none

/-- Leftmost match of `RECEIPT_REGEX` (the semantics of JavaScript
`String.prototype.match` / non-global `replace`): returns the text before
the match, the capture group, and the text after the match. -/
def receiptMatch : List Char → Option (List Char × List Char × List Char)
  | [] => none
  | c :: rest =>
    match matchFenceAt (c :: rest) with
    | some (g, after) => some ([], g, after)
    | none =>
      match receiptMatch rest with
      | some (pre, g, after) => some (c :: pre, g, after)
      | none => none

/-- `stripReceiptBlock` from `ChatInterface.tsx`:
`text.replace(RECEIPT_REGEX, "").trim()` — remove the first receipt block
if one is present, then trim. -/
def stripReceiptBlock (t : List Char) : List Char :=
  match receiptMatch t with
  | none => jsTrim t
  | some (pre, _, after) => jsTrim (pre ++ after)

/-! ### JSON values and `JSON.parse` (used by `parseReceipt`) -/

/-- JSON values as produced by `JSON.parse`. Numbers are modelled exactly
as rationals; the application never computes with them, it only passes them
through. -/
inductive Json where
  | jnull
  | jbool (b : Bool)
  | jnum (q : ℚ)
  | jstr (s : List Char)
  | jarr (elems : List Json)
  | jobj (fields : List (List Char × Json))

/-- JSON insignificant white space: space, tab, LF, CR. -/
def jsonWs (c : Char) : Bool :=
  let n := c.toNat
  n = 32 || n = 9 || n = 10 || n = 13

/-- Decimal digit test. -/
def isDigitCh (c : Char) : Bool := 48 ≤ c.toNat && c.toNat ≤ 57

/-- Hexadecimal digit value, if any. -/
def hexVal (c : Char) : Option Nat :=
  let n := c.toNat
  if 48 ≤ n && n ≤ 57 then some (n - 48)
  else if 97 ≤ n && n ≤ 102 then some (n - 87)
  else if 65 ≤ n && n ≤ 70 then some (n - 55)
  else none

/-- Numeric value of a digit string. -/
def natOfDigits (ds : List Char) : Nat :=
  ds.foldl (fun a c => a * 10 + (c.toNat - 48)) 0

/-- Parse the remainder of a JSON string literal (the opening quote already
consumed), handling the JSON escape sequences and rejecting raw control
characters, as `JSON.parse` does. Fuel-indexed so that the definition is
structural. -/
def parseJString : Nat → List Char → Option (List Char × List Char)
  | 0, _ => none
  | _ + 1, [] => none
  | fuel + 1, c :: rest =>
    if c = '"' then some ([], rest)
    else if c = '\\' then
      match rest with
      | [] => none
      | e :: rest2 =>
        let cont := fun (ch : Char) (rem : List Char) =>
          (parseJString fuel rem).map (fun p => (ch :: p.1, p.2))
        if e = '"' then cont '"' rest2
        else if e = '\\' then cont '\\' rest2
        else if e = '/' then cont '/' rest2
        else if e = 'b' then cont (Char.ofNat 8) rest2
        else if e = 'f' then cont (Char.ofNat 12) rest2
        else if e = 'n' then cont (Char.ofNat 10) rest2
        else if e = 'r' then cont (Char.ofNat 13) rest2
        else if e = 't' then cont (Char.ofNat 9) rest2
        else if e = 'u' then
          match rest2 with
          | h1 :: h2 :: h3 :: h4 :: rest3 =>
            match hexVal h1, hexVal h2, hexVal h3, hexVal h4 with
            | some a, some b, some c2, some d =>
                cont (Char.ofNat (a * 4096 + b * 256 + c2 * 16 + d)) rest3
            | _, _, _, _ => none
          | _ => none
        else none
    else if c.toNat < 32 then none
    else (parseJString fuel rest).map (fun p => (c :: p.1, p.2))

/-- Parse a JSON number token per the JSON grammar
(`-? int frac? exp?`), returning its exact value. -/
def parseJNum (s : List Char) : Option (ℚ × List Char) :=
  let signed := match s with
    | c :: r => if c = '-' then (true, r) else (false, s)
    | [] => (false, s)
  let neg := signed.1
  let s1 := signed.2
  match s1 with
  | [] => none
  | c :: _ =>
    if isDigitCh c then
      let ints := if c.toNat = 48 then ([c], s1.tail) else s1.span isDigitCh
      let intDs := ints.1
      let s2 := ints.2
      let fracStep : Option (List Char × List Char) :=
        match s2 with
        | d :: r2 =>
          if d = '.' then
            let f := r2.span isDigitCh
            if f.1 = [] then none else some (f.1, f.2)
          else some ([], s2)
        | [] => some ([], s2)
      match fracStep with
      | none => none
      | some (fracDs, s3) =>
        let expStep : Option (Int × List Char) :=
          match s3 with
          | e :: r3 =>
            if e = 'e' ∨ e = 'E' then
              let esigned := match r3 with
                | c2 :: r4 =>
                  if c2 = '+' then (false, r4)
                  else if c2 = '-' then (true, r4)
                  else (false, r3)
                | [] => (false, r3)
              let eds := esigned.2.span isDigitCh
              if eds.1 = [] then none
              else
                let v : Int := natOfDigits eds.1
                some (if esigned.1 then -v else v, eds.2)
            else some (0, s3)
          | [] => some (0, s3)
        match expStep with
        | none => none
        | some (ex, s4) =>
          let m : ℚ := natOfDigits (intDs ++ fracDs)
          let q : ℚ := m * (10 : ℚ) ^ (ex - (fracDs.length : Int))
          some (if neg then -q else q, s4)
    else none

/-- Tail of the literal `true`. -/
def trueTail : String := "rue"

/-- Tail of the literal `false`. -/
def falseTail : String := "alse"

/-- Tail of the literal `null`. -/
def nullTail : String := "ull"

/-- Parsing mode: a whole value, the elements of an array after a comma or
the opening bracket, or the members of an object. -/
inductive JMode where
  | val
  | elems (acc : List Json)
  | members (acc : List (List Char × Json))

/-- Recursive-descent JSON parser (the grammar accepted by `JSON.parse`),
structural in its fuel argument so that it is kernel-computable. -/
def parseJ : Nat → JMode → List Char → Option (Json × List Char)
  | 0, _, _ => none
  | fuel + 1, .val, s =>
    match s.dropWhile jsonWs with
    | [] => none
    | c :: rest =>
      if c = lbrace then
        match rest.dropWhile jsonWs with
        | d :: r2 =>
          if d = rbrace then some (.jobj [], r2)
          else parseJ fuel (.members []) (rest.dropWhile jsonWs)
        | [] => none
      else if c = '[' then
        match rest.dropWhile jsonWs with
        | d :: r2 =>
          if d = ']' then some (.jarr [], r2)
          else parseJ fuel (.elems []) (rest.dropWhile jsonWs)
        | [] => none
      else if c = '"' then
        (parseJString (rest.length + 1) rest).map (fun p => (.jstr p.1, p.2))
      else if c = 't' then
        (dropLit trueTail.data rest).map (fun r => (.jbool true, r))
      else if c = 'f' then
        (dropLit falseTail.data rest).map (fun r => (.jbool false, r))
      else if c = 'n' then
        (dropLit nullTail.data rest).map (fun r => (.jnull, r))
      else
        (parseJNum (c :: rest)).map (fun p => (.jnum p.1, p.2))
  | fuel + 1, .elems acc, s =>
    match parseJ fuel .val s with
    | none => none
    | some (v, r) =>
      match r.dropWhile jsonWs with
      | d :: r2 =>
        if d = ',' then parseJ fuel (.elems (v :: acc)) r2
        else if d = ']' then some (.jarr (v :: acc).reverse, r2)
        else none
      | [] => none
  | fuel + 1, .members acc, s =>
    match s.dropWhile jsonWs with
    | c :: rest =>
      if c = '"' then
        match parseJString (rest.length + 1) rest with
        | none => none
        | some (k, r) =>
          match r.dropWhile jsonWs with
          | d :: r2 =>
            if d = ':' then
              match parseJ fuel .val r2 with
              | none => none
              | some (v, r3) =>
                match r3.dropWhile jsonWs with
                | e :: r4 =>
                  if e = ',' then parseJ fuel (.members ((k, v) :: acc)) r4
                  else if e = rbrace then some (.jobj ((k, v) :: acc).reverse, r4)
                  else none
                | [] => none
            else none
          | [] => none
      else none
    | [] => none

/-- `JSON.parse`: parse one JSON value and require only white space after
it; any syntax error yields `none` (the thrown `SyntaxError` in JS). -/
def jsonParse (s : List Char) : Option Json :=
  match parseJ (2 * s.length + 8) .val s with
  | none => none
  | some (v, rest) => if rest.dropWhile jsonWs = [] then some v else none

/-- Property lookup on a parsed JSON value, as JS property access on the
object returned by `JSON.parse`: later duplicate keys overwrite earlier
ones; access on a non-object yields `undefined` (here `none`). -/
def jGet (v : Json) (k : List Char) : Option Json :=
  match v with
  | .jobj fs => fs.foldl (fun acc p => if p.1 = k then some p.2 else acc) none
  | _ => none

/-- Does the optional value hold exactly this JSON string? (JS strict
equality against a string literal.) -/
def jIsStr (o : Option Json) (s : List Char) : Bool :=
  match o with
  | some (.jstr t) => decide (t = s)
  | _ => false

/-- `Array.isArray` on an optional property value. -/
def jIsArr (o : Option Json) : Bool :=
  match o with
  | some (.jarr _) => true
  | _ => false

/-- Key "type". -/
def typeKey : String := "type"

/-- Key "items". -/
def itemsKey : String := "items"

/-- Receipt kind "order_complete". -/
def kindComplete : String := "order_complete"

/-- Receipt kind "order_update". -/
def kindUpdate : String := "order_update"

/-- The validation test inside `parseReceipt`:
`(data.type === "order_complete" || data.type === "order_update") &&
Array.isArray(data.items)`. -/
def recognizedReceipt (v : Json) : Bool :=
  (jIsStr (jGet v typeKey.data) kindComplete.data ||
   jIsStr (jGet v typeKey.data) kindUpdate.data) &&
  jIsArr (jGet v itemsKey.data)

/-- `parseReceipt` from `ChatInterface.tsx`: find the first receipt block
via `RECEIPT_REGEX`, `JSON.parse` its capture group, and accept the value
only if its `type` is one of the two recognised kinds and `items` is an
array; every failure (no block, invalid JSON, wrong shape, or a thrown
property access) is caught and becomes `null`. The function is total, so
it never throws. -/
def parseReceipt (t : List Char) : Option Json :=
  match receiptMatch t with
  | none => none
  | some (_, g, _) =>
    match jsonParse g with
    | none => none
    | some v => if recognizedReceipt v then some v else none

/-! ### Streaming response consumer (`handleSend` streaming loop) -/

/-- A recorded speech-start call: the accumulated stream content at the
moment of the call (`snapshot`), the text handed to `speakMessage`, and
whether it was the early (mid-stream) trigger or the post-stream call. -/
structure CallRec where
  snapshot : List Char
  text : List Char
  early : Bool
deriving DecidableEq

/-- Accumulator of the streaming loop in `handleSend`: the accumulated
`fullContent`, the `ttsStarted` flag, and the speech-start calls issued so
far. -/
structure SAcc where
  full : List Char
  ttsStarted : Bool
  calls : List CallRec
deriving DecidableEq

/-- One iteration of the `while` loop in `handleSend` for one decoded
chunk: append the chunk to `fullContent` and, if speech has not started
yet, voice mode is on, audio is not muted and at least 100 characters have
accumulated, mark `ttsStarted` and speak `stripReceiptBlock(fullContent).trim()`
when it is non-empty (`streamingId` is always set earlier in the same
iteration). -/
def streamStep (vm mu : Bool) (a : SAcc) (chunk : List Char) : SAcc :=
  let full := a.full ++ chunk
  if a.ttsStarted = false ∧ vm = true ∧ mu = false ∧ 100 ≤ full.length then
    let early := jsTrim (stripReceiptBlock full)
    { full := full, ttsStarted := true,
      calls := a.calls ++ (if early = [] then [] else [⟨full, early, true⟩]) }
  else { a with full := full }

/-- The streaming loop of one turn: fold the chunks through `streamStep`
starting from empty accumulated content. -/
def streamFold (vm mu : Bool) (chunks : List (List Char)) : SAcc :=
  chunks.foldl (streamStep vm mu) ⟨[], false, []⟩

/-- The post-stream speech text of `handleSend`: `displayContent.trim()`,
where `displayContent` strips the receipt block only when `parseReceipt`
accepted one. -/
def postText (a : SAcc) : List Char :=
  jsTrim (if (parseReceipt a.full).isSome then stripReceiptBlock a.full else a.full)

/-- The whole streamed turn of `handleSend`: fold the chunks through the
streaming loop; if no chunk at all arrived the code inserts a fallback
message and returns early; otherwise parse the receipt, compute the
display text, and issue the post-stream speech call only when no early
call was triggered (`!ttsStarted && voiceMode && !isMuted && ttsText`). -/
def streamTurn (vm mu : Bool) (chunks : List (List Char)) : SAcc :=
  if chunks = [] then streamFold vm mu chunks
  else if (streamFold vm mu chunks).ttsStarted = false ∧ vm = true ∧ mu = false ∧
          postText (streamFold vm mu chunks) ≠ [] then
    { streamFold vm mu chunks with
        calls := (streamFold vm mu chunks).calls ++
          [⟨(streamFold vm mu chunks).full, postText (streamFold vm mu chunks), false⟩] }
  else streamFold vm mu chunks

/-! ### Order persistence gateway (`order-service.ts`) -/

/-- An add-on line item as embedded in the `add_ons` JSON column
(`AddOnLineItem` in `types.ts`). -/
structure AddOnRow where
  name : List Char
  qty : ℚ
  unit_price : ℚ
deriving DecidableEq

/-- A row of `order_items` in insert shape (`NewOrderItem`; the store
assigns the row uuid). -/
structure ItemRow where
  order_id : List Char
  item_name : List Char
  size : List Char
  temp : List Char
  milk : Option (List Char)
  sweetness : List Char
  ice_level : List Char
  add_ons : List AddOnRow
  item_price : ℚ
  special_instructions : Option (List Char)
deriving DecidableEq

/-- A row of `orders` (`Order` in `types.ts`, restricted to the columns the
claims concern). -/
structure OrderRow where
  id : List Char
  order_number : Nat
  customer_name : Option (List Char)
  status : List Char
  total_price : ℚ
deriving DecidableEq

/-- The persistent store: the `orders` table and the `order_items` table. -/
structure DBState where
  orders : List OrderRow
  order_items : List ItemRow
deriving DecidableEq

/-- `ReceiptAddOn` from `order-service.ts`: the add-on shape the model
emits (`price` is the per-unit price). -/
structure ReceiptAddOn where
  name : List Char
  qty : ℚ
  price : ℚ
deriving DecidableEq

/-- `ReceiptItem` from `order-service.ts`. -/
structure ReceiptItem where
  item_name : List Char
  size : List Char
  temp : List Char
  milk : Option (List Char)
  sweetness : List Char
  ice_level : List Char
  add_ons : List ReceiptAddOn
  item_price : ℚ
  special_instructions : Option (List Char)
deriving DecidableEq

/-- The two receipt kinds. -/
inductive ReceiptKind where
  | order_complete
  | order_update
deriving DecidableEq

/-- `OrderReceipt` from `order-service.ts`. -/
structure OrderReceipt where
  rkind : ReceiptKind
  customer_name : Option (List Char)
  items : List ReceiptItem
  total_price : ℚ
deriving DecidableEq

/-- `toItemRows` from `order-service.ts`: map receipt items to row shape,
renaming each add-on's `price` to `unit_price`. -/
def toItemRows (orderId : List Char) (items : List ReceiptItem) : List ItemRow :=
  items.map (fun item =>
    { order_id := orderId
      item_name := item.item_name
      size := item.size
      temp := item.temp
      milk := item.milk
      sweetness := item.sweetness
      ice_level := item.ice_level
      add_ons := item.add_ons.map (fun a => ⟨a.name, a.qty, a.price⟩)
      item_price := item.item_price
      special_instructions := item.special_instructions })

/-- Status literal "new". -/
def statusNew : String := "new"

/-- The next order number in `saveOrder`: the store is queried for the
highest existing `order_number` (order by descending, limit 1); absence
yields 0; the new number is that plus one. -/
def nextOrderNumber (orders : List OrderRow) : Nat :=
  (orders.map (fun o => o.order_number)).foldr max 0 + 1

/-- `saveOrder` from `order-service.ts`: compute the next order number,
insert the order row with `total_price: receipt.total_price` (the
model-stated total, stored unchanged), then insert the item rows. `newId`
stands for the uuid the store assigns. Returns the new store state and the
inserted order row. -/
def saveOrder (db : DBState) (receipt : OrderReceipt) (newId : List Char) :
    DBState × OrderRow :=
  let order : OrderRow :=
    { id := newId
      order_number := nextOrderNumber db.orders
      customer_name := receipt.customer_name
      status := statusNew.data
      total_price := receipt.total_price }
  let itemRows := toItemRows newId receipt.items
  (⟨db.orders ++ [order], db.order_items ++ itemRows⟩, order)

/-- `updateOrder` from `order-service.ts`: (1) update the matching order's
`total_price`, (2) delete every `order_items` row of that order, (3) insert
the new item rows. Id and order number are never written. -/
def updateOrder (db : DBState) (orderId : List Char) (items : List ReceiptItem)
    (newTotal : ℚ) : DBState :=
  { orders := db.orders.map (fun o =>
      if o.id = orderId then { o with total_price := newTotal } else o)
    order_items :=
      db.order_items.filter (fun it => !decide (it.order_id = orderId))
        ++ toItemRows orderId items }

/-! ### Turn controller state (`ChatInterface.tsx`) -/

/-- The turn controller's state: the React state and refs of
`ChatInterface` that the control flow reads, plus observation counters.
`autoListenTimer` mirrors `autoListenTimerRef`: `none` = null ref,
`some true` = a live armed timeout, `some false` = a stale id whose
timeout already fired. `liveTimers` counts scheduled and not yet
fired/cancelled silence timeouts (an observation, to state that at most
one can be pending). `turnsStarted`, `micActivations` and `messagesCount`
are observation counters: `handleSend` entries, `activateMic` runs, and
chat messages in state. -/
structure Ctrl where
  voiceMode : Bool
  isMuted : Bool
  isResponding : Bool
  isTyping : Bool
  orderComplete : Bool
  ttsEndedWhileResponding : Bool
  speakingMessage : Bool
  autoListenTimer : Option Bool
  liveTimers : Nat
  micSession : Bool
  micListening : Bool
  micFinalBuffer : List Char
  ttsFetchActive : Bool
  ttsAudioActive : Bool
  chatStreamActive : Bool
  turnsStarted : Nat
  micActivations : Nat
  messagesCount : Nat
deriving DecidableEq

/-- `clearAutoListenTimer`: if the ref holds a timer id, `clearTimeout` it
(cancelling the timeout if it is still pending) and null the ref. -/
def clearAutoListenTimer (s : Ctrl) : Ctrl :=
  match s.autoListenTimer with
  | none => s
  | some live =>
    { s with autoListenTimer := none,
             liveTimers := if live then s.liveTimers - 1 else s.liveTimers }

/-- `stop` of `useTextToSpeech` as seen from the controller: abort the
in-flight synthesis fetch (if any) and discard the audio element. It never
fires `onEnd` (see the dedicated playback-adapter model below for the
deeper analysis). -/
def ttsStop (s : Ctrl) : Ctrl :=
  { s with ttsFetchActive := false, ttsAudioActive := false }

/-- `startListening` of `useSpeechRecognition`: abort any existing
recognition session, create a fresh one (clearing the final-transcript
buffer) and start it. -/
def startListening (s : Ctrl) : Ctrl :=
  { s with micSession := true, micListening := true, micFinalBuffer := [] }

/-- `activateMic` from `ChatInterface.tsx`: clear the silence timer, start
the mic, and arm a fresh 5-second silence timeout. -/
def activateMic (s : Ctrl) : Ctrl :=
  let s1 := startListening (clearAutoListenTimer s)
  { s1 with autoListenTimer := some true, liveTimers := s1.liveTimers + 1,
            micActivations := s1.micActivations + 1 }

/-- The entry of `handleSend` (through appending the customer message and
setting the responding flags, before the `/api/chat` fetch): clear the
silence timer, stop speech playback, clear the speaking-bubble id, reset
the deferred-reactivation flag, append the customer message, set typing
and responding. Note: nothing here touches a previous turn's in-flight
`/api/chat` stream. -/
def handleSendEntry (s : Ctrl) : Ctrl :=
  let s1 := ttsStop (clearAutoListenTimer s)
  { s1 with speakingMessage := false, ttsEndedWhileResponding := false,
            messagesCount := s1.messagesCount + 1, isTyping := true,
            isResponding := true, turnsStarted := s1.turnsStarted + 1 }

/-- `onFinalSpeech` from `ChatInterface.tsx`: a final transcript starts a
new turn only when no response is in flight and the trimmed text is
non-empty; otherwise it is discarded with no effect. -/
def onFinalSpeech (s : Ctrl) (text : List Char) : Ctrl :=
  if s.isResponding = false ∧ jsTrim text ≠ [] then handleSendEntry s else s

/-- `stopListening` of `useSpeechRecognition`: if a recognition session
exists, `stop()` it, which fires `onend`: the listening flag drops, the
session ref is nulled, and the trimmed final-transcript buffer, when
non-empty, is delivered to `onFinalSpeech`. Without a session only the
listening flag is cleared. -/
def stopListening (s : Ctrl) : Ctrl :=
  if s.micSession then
    if jsTrim s.micFinalBuffer ≠ [] then
      onFinalSpeech { s with micListening := false, micSession := false }
        (jsTrim s.micFinalBuffer)
    else { s with micListening := false, micSession := false }
  else { s with micListening := false }

/-- Expiry of the 5-second silence timeout armed by `activateMic`: the
pending timeout (if still live) runs `stopListening` exactly as a manual
stop would; the ref keeps the stale id. -/
def timerFire (s : Ctrl) : Ctrl :=
  if s.autoListenTimer = some true then
    stopListening { s with autoListenTimer := some false,
                           liveTimers := s.liveTimers - 1 }
  else s

/-- `onTtsEnd` from `ChatInterface.tsx`: on natural speech completion, do
nothing if the order is complete; do nothing if voice mode is off or
muted; if the model is still streaming, park the deferred-reactivation
intent; otherwise reactivate the mic. -/
def onTtsEnd (s : Ctrl) : Ctrl :=
  if s.orderComplete = true then s
  else if s.voiceMode = false ∨ s.isMuted = true then s
  else if s.isResponding = true then { s with ttsEndedWhileResponding := true }
  else activateMic s

/-- The `finally` block of `handleSend`: the responding/typing flags drop
(and the turn's stream is over), then a parked deferred-reactivation
intent is honoured only if voice mode is on, audio is not muted and the
order is not complete. -/
def sendFinally (s : Ctrl) : Ctrl :=
  if s.ttsEndedWhileResponding = true ∧ s.voiceMode = true ∧
     s.isMuted = false ∧ s.orderComplete = false then
    activateMic { s with isResponding := false, isTyping := false,
                         chatStreamActive := false,
                         ttsEndedWhileResponding := false }
  else { s with isResponding := false, isTyping := false,
                chatStreamActive := false }

/-- `handleStartListening` from `ChatInterface.tsx` (the user taps the mic
button): clear the silence timer, stop playback, clear the speaking bubble
and start listening — no silence timer is armed on the manual path. -/
def handleStartListening (s : Ctrl) : Ctrl :=
  startListening { (ttsStop (clearAutoListenTimer s)) with speakingMessage := false }

/-- `handleNewOrder` from `ChatInterface.tsx` (the user taps "New order"):
clear the timer, stop playback, reset every order flag and replace the
conversation with the greeting. -/
def handleNewOrder (s : Ctrl) : Ctrl :=
  { (ttsStop (clearAutoListenTimer s)) with
      speakingMessage := false, orderComplete := false,
      ttsEndedWhileResponding := false, messagesCount := 1,
      isTyping := false, isResponding := false }

/-- `handleModifyOrder` from `ChatInterface.tsx` (the user taps "Modify
order"): reopen the order flow and append the cashier prompt. -/
def handleModifyOrder (s : Ctrl) : Ctrl :=
  { s with orderComplete := false, ttsEndedWhileResponding := false,
           messagesCount := s.messagesCount + 1 }

/-- The receipt-handling tail of `handleSend` when a receipt was found
(update or complete branch): clear the modification state, set
`orderCompleteRef`, clear the timer and stop listening. -/
def receiptHandled (s : Ctrl) : Ctrl :=
  stopListening (clearAutoListenTimer { s with orderComplete := true })

/-- The mute toggle button: entering the muted state stops playback. -/
def toggleMute (s : Ctrl) : Ctrl :=
  if s.isMuted = false then { (ttsStop s) with isMuted := true }
  else { s with isMuted := false }

/-- External events of the controller: user actions, timer expiry,
speech-recognition results and the asynchronous completions of the
turn pipeline. -/
inductive CEvent where
  | startListen
  | stopListen
  | micFinal (t : List Char)
  | timerFire
  | ttsEnd
  | sendEntry
  | receiptDone
  | sendFinally
  | newOrder
  | modifyOrder
  | toggleMute
deriving DecidableEq

/-- One controller step per event. `micFinal` models the recognition
engine accumulating a final result chunk into the transcript buffer;
`sendEntry` additionally opens the turn's `/api/chat` stream. -/
def cstep (s : Ctrl) : CEvent → Ctrl
  | .startListen => handleStartListening s
  | .stopListen => stopListening s
  | .micFinal t =>
      if s.micSession then { s with micFinalBuffer := s.micFinalBuffer ++ t } else s
  | .timerFire => timerFire s
  | .ttsEnd => onTtsEnd s
  | .sendEntry => { (handleSendEntry s) with chatStreamActive := true }
  | .receiptDone => receiptHandled s
  | .sendFinally => sendFinally s
  | .newOrder => handleNewOrder s
  | .modifyOrder => handleModifyOrder s
  | .toggleMute => toggleMute s

/-- Run a list of controller events. -/
def crun (s : Ctrl) (evs : List CEvent) : Ctrl :=
  evs.foldl cstep s

/-- The initial controller state: greeting shown, voice mode on, nothing
in flight. -/
def initCtrl : Ctrl :=
  { voiceMode := true, isMuted := false, isResponding := false,
    isTyping := false, orderComplete := false,
    ttsEndedWhileResponding := false, speakingMessage := false,
    autoListenTimer := none, liveTimers := 0, micSession := false,
    micListening := false, micFinalBuffer := [], ttsFetchActive := false,
    ttsAudioActive := false, chatStreamActive := false, turnsStarted := 0,
    micActivations := 0, messagesCount := 1 }

/-- The automatic events relevant to a completed order: natural speech
completions (`onTtsEnd`) and the deferred-reactivation drain in the
`finally` block of `handleSend`. -/
inductive AutoEv where
  | ttsEnd
  | sendFinally
deriving DecidableEq

/-- Step of the automatic-event machine. -/
def autoStep (s : Ctrl) : AutoEv → Ctrl
  | .ttsEnd => onTtsEnd s
  | .sendFinally => sendFinally s

/-- Run a list of automatic events. -/
def autoRun (s : Ctrl) (evs : List AutoEv) : Ctrl :=
  evs.foldl autoStep s

/-! ### Speech playback adapter (`useTextToSpeech.ts`) -/

/-- Position of the in-flight `speak()` coroutine relative to its await
points. -/
inductive TPhase where
  | idle
  | fetching
  | blobWait
  | playPending
  | playing
  | bufferWait
  | done
deriving DecidableEq

/-- State of the playback adapter: the abort flag of the session's
`AbortController`, whether `abortControllerRef` / `audioRef` are non-null,
the `isSpeaking` state, the coroutine phase, and how many times the
`onEnd` callback has fired. -/
structure TtsState where
  aborted : Bool
  hasController : Bool
  hasAudio : Bool
  isSpeaking : Bool
  phase : TPhase
  onEndCount : Nat
deriving DecidableEq

/-- `stop()` from `useTextToSpeech.ts`: abort the controller held in
`abortControllerRef` (if any) and null the ref; pause and discard the
audio element; drop `isSpeaking`. It does not call `onEnd` itself. -/
def ttsStopOp (s : TtsState) : TtsState :=
  { s with aborted := s.aborted || s.hasController,
           hasController := false, hasAudio := false, isSpeaking := false }

/-- `speak(text)` with non-empty text: first `stop()` anything in flight,
then install a fresh controller and start the synthesis fetch. -/
def speakStart (s : TtsState) : TtsState :=
  { (ttsStopOp s) with aborted := false, hasController := true,
                       isSpeaking := true, phase := .fetching }

/-- Events of one playback session: settlement of the fetch, of
`response.blob()`, of the `audio.play()` promise, the audio events, the
400 ms tail-buffer timeout, and the caller-driven `stop()`/`speak()`. -/
inductive TEv where
  | stop
  | speakCall
  | fetchOk
  | fetchNotOk
  | fetchAbort
  | blobOk
  | blobAbort
  | playOk
  | playFail
  | audioEnded
  | audioError
  | bufferElapsed
deriving DecidableEq

/-- Transition relation of `speak`'s body. `fetchNotOk`: the `!response.ok`
branch sets `isSpeaking` false and fires `onEnd` (soft failure).
`fetchAbort`/`blobAbort`: an `AbortError` is caught and the coroutine
returns without `onEnd`. `blobOk`: the explicit
`controller.signal.aborted` check bails without `onEnd`; otherwise the
audio element is created and `play()` is called. `playFail` and
`audioError`: the rejection/error handler resolves the playback promise
with no aborted check, after which `onEnd` fires unconditionally.
`audioEnded`: `onended` arms the tail-buffer timeout. `bufferElapsed`: the
timeout body checks `aborted` — if set it returns (the promise never
resolves, no `onEnd`), otherwise the promise resolves and `onEnd` fires. -/
def tstep (s : TtsState) : TEv → TtsState
  | .stop => ttsStopOp s
  | .speakCall => speakStart s
  | .fetchOk =>
      if s.phase = .fetching ∧ s.aborted = false then { s with phase := .blobWait } else s
  | .fetchNotOk =>
      if s.phase = .fetching ∧ s.aborted = false then
        { s with phase := .done, isSpeaking := false, onEndCount := s.onEndCount + 1 }
      else s
  | .fetchAbort =>
      if s.phase = .fetching ∧ s.aborted = true then { s with phase := .done } else s
  | .blobOk =>
      if s.phase = .blobWait then
        if s.aborted = true then { s with phase := .done }
        else { s with hasAudio := true, phase := .playPending }
      else s
  | .blobAbort =>
      if s.phase = .blobWait ∧ s.aborted = true then { s with phase := .done } else s
  | .playOk =>
      if s.phase = .playPending then { s with phase := .playing } else s
  | .playFail =>
      if s.phase = .playPending then
        { s with phase := .done, hasAudio := false, isSpeaking := false,
                 onEndCount := s.onEndCount + 1 }
      else s
  | .audioEnded =>
      if s.phase = .playing then { s with phase := .bufferWait } else s
  | .audioError =>
      if s.phase = .playPending ∨ s.phase = .playing then
        { s with phase := .done, hasAudio := false, isSpeaking := false,
                 onEndCount := s.onEndCount + 1 }
      else s
  | .bufferElapsed =>
      if s.phase = .bufferWait then
        if s.aborted = true then { s with phase := .done }
        else { s with hasAudio := false, phase := .done, isSpeaking := false,
                      onEndCount := s.onEndCount + 1 }
      else s

/-- Run a list of playback events. -/
def trun (s : TtsState) (evs : List TEv) : TtsState :=
  evs.foldl tstep s

/-- The playback adapter before any `speak` call. -/
def initTts : TtsState :=
  { aborted := false, hasController := false, hasAudio := false,
    isSpeaking := false, phase := .idle, onEndCount := 0 }

/-- Does the pattern occur as a contiguous subsequence of the text? -/
def containsSeq (pat : List Char) : List Char → Bool
  | [] => (dropLit pat ([] : List Char)).isSome
  | c :: rest => (dropLit pat (c :: rest)).isSome || containsSeq pat rest

/-! ### Shared lemmas about trimming -/

/-- Dropping a prefix twice is the same as dropping it once. -/
theorem dropWhile_dropWhile (p : Char → Bool) (l : List Char) :
    (l.dropWhile p).dropWhile p = l.dropWhile p := by
  induction l with
  | nil => rfl
  | cons c t ih =>
    by_cases h : p c
    · simp [List.dropWhile_cons, h, ih]
    · simp [List.dropWhile_cons, h]

/-- If a list has no droppable prefix, trimming its tail leaves no
droppable prefix either. -/
theorem dropWhile_of_trimmed (p : Char → Bool) (a : List Char)
    (ha : a.dropWhile p = a) :
    ((a.reverse.dropWhile p).reverse).dropWhile p = (a.reverse.dropWhile p).reverse := by
  have hsplit : a.reverse.takeWhile p ++ a.reverse.dropWhile p = a.reverse :=
    List.takeWhile_append_dropWhile p a.reverse
  have haeq : a = (a.reverse.dropWhile p).reverse ++ (a.reverse.takeWhile p).reverse := by
    have h2 := congrArg List.reverse hsplit
    rw [List.reverse_append, List.reverse_reverse] at h2
    exact h2.symm
  cases hx : (a.reverse.dropWhile p).reverse with
  | nil => simp
  | cons c t =>
    rw [hx] at haeq
    by_cases hp : p c
    · exfalso
      have hdrop : a.dropWhile p = (t ++ (a.reverse.takeWhile p).reverse).dropWhile p := by
        conv_lhs => rw [haeq]
        simp [List.dropWhile_cons, hp]
      have hlen1 := congrArg List.length (ha.symm.trans hdrop)
      have hlen2 :=
        (List.dropWhile_sublist (p := p)
          (l := t ++ (a.reverse.takeWhile p).reverse)).length_le
      have hlen3 := congrArg List.length haeq
      rw [List.length_append, List.length_reverse] at hlen2
      simp [List.length_append, List.length_reverse] at hlen3
      omega
    · simp [List.dropWhile_cons, hp]

/-- JavaScript `trim` is idempotent. -/
theorem jsTrim_idem (s : List Char) : jsTrim (jsTrim s) = jsTrim s := by
  unfold jsTrim
  have hadw : (s.dropWhile isJsSpace).dropWhile isJsSpace = s.dropWhile isJsSpace :=
    dropWhile_dropWhile isJsSpace s
  rw [dropWhile_of_trimmed isJsSpace (s.dropWhile isJsSpace) hadw]
  rw [List.reverse_reverse]
  rw [dropWhile_dropWhile]

/-- The output of `stripReceiptBlock` is already trimmed. -/
theorem jsTrim_stripReceiptBlock (t : List Char) :
    jsTrim (stripReceiptBlock t) = stripReceiptBlock t := by
  unfold stripReceiptBlock
  cases receiptMatch t with
  | none => exact jsTrim_idem t
  | some pr => exact jsTrim_idem _

/-! ### Claim C6 — idempotence of `stripReceiptBlock` -/

/-- A response text containing two receipt blocks. -/
def twoBlockText : String := "```json \x7b1\x7d ``` and ```json \x7b2\x7d ```"

/-- C6 counterexample: `stripReceiptBlock` is NOT idempotent on every
input. `RECEIPT_REGEX` is not global, so `replace` removes only the first
fenced block; on a text with two blocks the second application removes the
second block, changing the result
("and ```json \x7b2\x7d ```" becomes "and"). -/
theorem c6_strip_not_idempotent :
    stripReceiptBlock (stripReceiptBlock twoBlockText.data) ≠
      stripReceiptBlock twoBlockText.data := by
  decide

/-- C6 (amended): `stripReceiptBlock` is idempotent on every input whose
stripped output contains no further receipt block — in particular on any
text with at most one fenced block, the shape §4.3 of the spec assumes —
and re-running the receipt parser on that output finds no receipt. -/
theorem c6_strip_idempotent_single_block (t : List Char)
    (h : receiptMatch (stripReceiptBlock t) = none) :
    stripReceiptBlock (stripReceiptBlock t) = stripReceiptBlock t ∧
    parseReceipt (stripReceiptBlock t) = none := by
  constructor
  · conv_lhs => rw [stripReceiptBlock]
    rw [h]
    exact jsTrim_stripReceiptBlock t
  · rw [parseReceipt, h]

/-- A response text with a single receipt block. -/
def oneBlockText : String := "Thanks! ```json \x7b1\x7d ``` done"

/-- Witness for C6 (amended) at a concrete single-block input. -/
theorem c6_witness :
    receiptMatch (stripReceiptBlock oneBlockText.data) = none ∧
    (stripReceiptBlock (stripReceiptBlock oneBlockText.data) =
        stripReceiptBlock oneBlockText.data ∧
      parseReceipt (stripReceiptBlock oneBlockText.data) = none) :=
  ⟨by decide, c6_strip_idempotent_single_block oneBlockText.data (by decide)⟩

/-! ### Claim C7 — `parseReceipt` error tolerance -/

/-- C7: `parseReceipt` returns `null` exactly in the tolerated cases — no
fenced block present, a block whose content `JSON.parse` rejects, or a
parsed value failing the `type`/`items` validation (in particular a
`type` that is neither "order_complete" nor "order_update"). Being a total
function whose every failure case yields `none`, it never throws, so a
turn without a valid receipt continues as plain text. -/
theorem c7_parseReceipt_null_cases (t : List Char) :
    parseReceipt t = none ↔
      receiptMatch t = none ∨
      ∃ pre g post, receiptMatch t = some (pre, g, post) ∧
        (jsonParse g = none ∨
         ∃ v, jsonParse g = some v ∧ recognizedReceipt v = false) := by
  unfold parseReceipt
  cases hm : receiptMatch t with
  | none => simp
  | some trip =>
    obtain ⟨pre, g, post⟩ := trip
    cases hj : jsonParse g with
    | none =>
      simp only [hj]
      simp
      exact ⟨pre, g, ⟨rfl, rfl⟩, Or.inl hj⟩
    | some v =>
      by_cases hr : recognizedReceipt v = true
      · simp [hj, hr]
      · have hr' : recognizedReceipt v = false := by
          cases hq : recognizedReceipt v
          · rfl
          · exact absurd hq hr
        simp [hj, hr']
        exact ⟨pre, g, ⟨rfl, rfl⟩, Or.inr ⟨v, hj, hr'⟩⟩

/-! ### Claim C10 — discarded final transcripts -/

/-- C10: a final speech transcript arriving while a model response is in
flight, or whose text trims to empty, is silently discarded: the
controller state is left fully unchanged — in particular no customer
message is appended (`messagesCount`) and no model call is started
(`turnsStarted`). -/
theorem c10_stale_transcript_discarded (s : Ctrl) (text : List Char)
    (h : s.isResponding = true ∨ jsTrim text = []) :
    onFinalSpeech s text = s := by
  rcases h with h | h
  · simp [onFinalSpeech, h]
  · simp [onFinalSpeech, h]

/-- A state with a response in flight. -/
def respondingCtrl : Ctrl := { initCtrl with isResponding := true }

/-- A transcript text. -/
def transcriptText : String := "one latte please"

/-- Witness for C10 at a concrete state and transcript. -/
theorem c10_witness :
    (respondingCtrl.isResponding = true ∨ jsTrim transcriptText.data = []) ∧
    onFinalSpeech respondingCtrl transcriptText.data = respondingCtrl :=
  ⟨Or.inl rfl,
   c10_stale_transcript_discarded respondingCtrl transcriptText.data (Or.inl rfl)⟩

/-! ### Claim C1 — no automatic mic reactivation after order completion -/

/-- A single automatic event preserves order completion and never runs
`activateMic`: `onTtsEnd` returns at its first guard, and the deferred
drain in `finally` requires the order not to be complete. -/
theorem autoStep_orderComplete (s : Ctrl) (hs : s.orderComplete = true)
    (e : AutoEv) :
    (autoStep s e).orderComplete = true ∧
    (autoStep s e).micActivations = s.micActivations := by
  cases e
  · constructor <;> simp [autoStep, onTtsEnd, hs]
  · constructor <;> simp [autoStep, sendFinally, hs]

/-- C1: once `orderCompleteRef` is set by receipt handling, no sequence of
natural speech completions (`onTtsEnd`) and stream-end drains (the
`finally` block), whatever the value of the deferred-reactivation flag,
ever invokes `activateMic`, and the order stays complete. Only
`handleNewOrder` and `handleModifyOrder` — the two user actions — clear
`orderCompleteRef`. -/
theorem c1_no_reactivation_after_complete (s : Ctrl) (evs : List AutoEv)
    (hs : s.orderComplete = true) :
    (autoRun s evs).orderComplete = true ∧
    (autoRun s evs).micActivations = s.micActivations := by
  induction evs generalizing s with
  | nil => exact ⟨hs, rfl⟩
  | cons e rest ih =>
    have h1 := autoStep_orderComplete s hs e
    have h2 := ih (autoStep s e) h1.1
    exact ⟨h2.1, h2.2.trans h1.2⟩

/-- A completed-order state with the deferred-reactivation flag parked. -/
def completedCtrl : Ctrl :=
  { initCtrl with orderComplete := true, ttsEndedWhileResponding := true }

/-- A burst of pending speech-completion callbacks and stream drains. -/
def autoBurst : List AutoEv :=
  [.ttsEnd, .sendFinally, .ttsEnd, .ttsEnd, .sendFinally, .ttsEnd]

/-- Witness for C1 at a concrete completed-order state. -/
theorem c1_witness :
    completedCtrl.orderComplete = true ∧
    ((autoRun completedCtrl autoBurst).orderComplete = true ∧
     (autoRun completedCtrl autoBurst).micActivations =
       completedCtrl.micActivations) :=
  ⟨rfl, c1_no_reactivation_after_complete completedCtrl autoBurst rfl⟩

/-! ### Claim C3 — what entering `handleSend` cancels -/

/-- A state in which the previous turn's `/api/chat` stream, its playback
and its silence timer are all still active. -/
def busyCtrl : Ctrl :=
  { initCtrl with chatStreamActive := true, ttsFetchActive := true,
                  ttsAudioActive := true, autoListenTimer := some true,
                  liveTimers := 1, isResponding := true }

/-- C3 counterexample: the claim that entering `handleSend` aborts the
previous turn's in-flight network stream is false — `handleSend` attaches
no abort signal to its `/api/chat` fetch and touches no previous fetch, so
after the new turn's entry the old stream is still active and its late
chunks can still be applied. -/
theorem c3_stream_not_aborted :
    (handleSendEntry busyCtrl).chatStreamActive = true := by
  decide

/-- C3 (amended): entering `handleSend` cancels the silence-guard timer,
aborts in-flight speech playback (both the synthesis fetch and the audio
element) and resets the deferred-reactivation flag before the new turn
produces any effect; the previous turn's `/api/chat` network stream,
however, is left untouched. -/
theorem c3_entry_cancels (s : Ctrl) :
    (handleSendEntry s).autoListenTimer = none ∧
    (handleSendEntry s).ttsFetchActive = false ∧
    (handleSendEntry s).ttsAudioActive = false ∧
    (handleSendEntry s).ttsEndedWhileResponding = false ∧
    (handleSendEntry s).speakingMessage = false ∧
    (handleSendEntry s).chatStreamActive = s.chatStreamActive := by
  cases h : s.autoListenTimer with
  | none => simp [handleSendEntry, ttsStop, clearAutoListenTimer, h]
  | some live => simp [handleSendEntry, ttsStop, clearAutoListenTimer, h]

/-! ### Claim C4 — `stop()` of the playback adapter -/

/-- C4: `stop()` is idempotent on the adapter state (second conjunct of
the claim holds), but `stop()` CAN trigger the completion callback: after
`speak` has created the audio element and called `play()`, a `stop()`
pauses the element, which rejects the still-pending `play()` promise; the
rejection handler resolves the playback promise without consulting
`controller.signal.aborted`, and the code after the await then fires
`onEnd` unconditionally. The third conjunct evaluates exactly this trace:
before the rejection `onEnd` has fired 0 times, after it 1 time — `onEnd`
fires as a result of an explicit stop, contradicting the hook's own
documentation ("Called when audio finishes playing naturally (not when
stop() is called)"). -/
theorem c4_stop_can_fire_onEnd :
    (∀ s : TtsState, ttsStopOp (ttsStopOp s) = ttsStopOp s) ∧
    (trun initTts [.speakCall, .fetchOk, .blobOk, .stop]).onEndCount = 0 ∧
    (trun initTts [.speakCall, .fetchOk, .blobOk, .stop, .playFail]).onEndCount = 1 := by
  refine ⟨?_, by decide, by decide⟩
  intro s
  simp [ttsStopOp]

/-! ### Claim C5 — `updateOrder` replaces items, preserves identity -/

/-- C5: for an existing order id, `updateOrder` (1) leaves every order's
id and order number unchanged, (2) sets the matching order's total to the
new total, (3) leaves exactly the new item rows attached to the order —
not the union with the old ones — and (4) does not touch any other
order's items. -/
theorem c5_updateOrder_replaces (db : DBState) (oid : List Char)
    (items : List ReceiptItem) (t : ℚ)
    (h : ∃ o, o ∈ db.orders ∧ o.id = oid) :
    ((updateOrder db oid items t).orders.map (fun o => (o.id, o.order_number)) =
      db.orders.map (fun o => (o.id, o.order_number))) ∧
    (∃ o, o ∈ (updateOrder db oid items t).orders ∧ o.id = oid ∧
      o.total_price = t) ∧
    ((updateOrder db oid items t).order_items.filter
        (fun it => decide (it.order_id = oid)) = toItemRows oid items) ∧
    ((updateOrder db oid items t).order_items.filter
        (fun it => !decide (it.order_id = oid)) =
      db.order_items.filter (fun it => !decide (it.order_id = oid))) := by
  refine ⟨?_, ?_, ?_, ?_⟩
  · unfold updateOrder
    simp only [List.map_map]
    apply List.map_congr_left
    intro o _
    by_cases ho : o.id = oid <;> simp [ho]
  · obtain ⟨o, hmem, hid⟩ := h
    refine ⟨{ o with total_price := t }, ?_, hid, rfl⟩
    unfold updateOrder
    have := List.mem_map_of_mem
      (f := fun o => if o.id = oid then { o with total_price := t } else o) hmem
    simpa [hid] using this
  · unfold updateOrder
    simp only [List.filter_append]
    have h1 : (db.order_items.filter (fun it => !decide (it.order_id = oid))).filter
        (fun it => decide (it.order_id = oid)) = [] := by
      rw [List.filter_filter]
      have : ∀ it : ItemRow,
          (decide (it.order_id = oid) && !decide (it.order_id = oid)) = false := by
        intro it; exact Bool.and_not_self _
      simp [this]
    have h2 : (toItemRows oid items).filter
        (fun it => decide (it.order_id = oid)) = toItemRows oid items := by
      apply List.filter_eq_self.mpr
      intro a ha
      unfold toItemRows at ha
      obtain ⟨i, _, hi⟩ := List.mem_map.mp ha
      rw [← hi]
      simp
    rw [h1, h2, List.nil_append]
  · unfold updateOrder
    simp only [List.filter_append]
    have h1 : (db.order_items.filter (fun it => !decide (it.order_id = oid))).filter
        (fun it => !decide (it.order_id = oid)) =
        db.order_items.filter (fun it => !decide (it.order_id = oid)) := by
      rw [List.filter_filter]
      simp
    have h2 : (toItemRows oid items).filter
        (fun it => !decide (it.order_id = oid)) = [] := by
      apply List.filter_eq_nil_iff.mpr
      intro a ha
      unfold toItemRows at ha
      obtain ⟨i, _, hi⟩ := List.mem_map.mp ha
      rw [← hi]
      simp
    rw [h1, h2, List.append_nil]

/-! ### Claim C8 — the model-stated total is stored unchanged -/

/-- C8: persistence stores exactly the model-stated `total_price`. For
`saveOrder` the inserted order row carries `receipt.total_price` verbatim;
hence when the stated total agrees with the sum of the item prices, that
sum is what is stored, to the cent, and when they diverge the stated total
is still stored unchanged (no re-derivation or correction anywhere). The
update path likewise writes the stated total for the matching order. -/
theorem c8_stated_total_stored (db : DBState) (r : OrderReceipt)
    (nid : List Char) :
    ((saveOrder db r nid).2.total_price = r.total_price) ∧
    (r.total_price = (r.items.map (fun i => i.item_price)).sum →
      (saveOrder db r nid).2.total_price =
        (r.items.map (fun i => i.item_price)).sum) ∧
    (∀ oid o, o ∈ (updateOrder db oid r.items r.total_price).orders →
      o.id = oid → o.total_price = r.total_price) := by
  refine ⟨rfl, ?_, ?_⟩
  · intro h; exact h
  · intro oid o hmem hid
    unfold updateOrder at hmem
    obtain ⟨o0, h0, heq⟩ := List.mem_map.mp hmem
    by_cases hcase : o0.id = oid
    · rw [← heq]; simp [hcase]
    · rw [← heq] at hid
      simp [hcase] at hid

/-- Order id used in the persistence witnesses. -/
def orderIdA : String := "11111111-2222-3333-4444-555555555555"

/-- Item name for witnesses. -/
def latteName : String := "Latte"

/-- Size literal. -/
def sizeLarge : String := "large"

/-- Temperature literal. -/
def tempHot : String := "hot"

/-- Milk literal. -/
def milkOat : String := "oat"

/-- Sweetness literal. -/
def sweetNormal : String := "normal"

/-- Ice-level literal. -/
def iceNone : String := "no_ice"

/-- Item name for the revised order. -/
def mochaName : String := "Mocha"

/-- A concrete receipt item (price 7). -/
def latteItem : ReceiptItem :=
  { item_name := latteName.data, size := sizeLarge.data, temp := tempHot.data,
    milk := some milkOat.data, sweetness := sweetNormal.data,
    ice_level := iceNone.data, add_ons := [], item_price := 7,
    special_instructions := none }

/-- A concrete revised receipt item (price 9). -/
def mochaItem : ReceiptItem :=
  { item_name := mochaName.data, size := sizeLarge.data, temp := tempHot.data,
    milk := none, sweetness := sweetNormal.data, ice_level := iceNone.data,
    add_ons := [], item_price := 9, special_instructions := none }

/-- A stored order row for the witnesses. -/
def orderRowA : OrderRow :=
  { id := orderIdA.data, order_number := 42, customer_name := none,
    status := statusNew.data, total_price := 7 }

/-- A store holding one order with one line item. -/
def dbA : DBState :=
  { orders := [orderRowA], order_items := toItemRows orderIdA.data [latteItem] }

/-- Witness for C5: updating the existing order with the revised item list
and total replaces the items and total and keeps id and order number. -/
theorem c5_witness :
    (∃ o, o ∈ dbA.orders ∧ o.id = orderIdA.data) ∧
    (((updateOrder dbA orderIdA.data [mochaItem] 9).orders.map
        (fun o => (o.id, o.order_number)) =
      dbA.orders.map (fun o => (o.id, o.order_number))) ∧
    (∃ o, o ∈ (updateOrder dbA orderIdA.data [mochaItem] 9).orders ∧
      o.id = orderIdA.data ∧ o.total_price = 9) ∧
    ((updateOrder dbA orderIdA.data [mochaItem] 9).order_items.filter
        (fun it => decide (it.order_id = orderIdA.data)) =
      toItemRows orderIdA.data [mochaItem]) ∧
    ((updateOrder dbA orderIdA.data [mochaItem] 9).order_items.filter
        (fun it => !decide (it.order_id = orderIdA.data)) =
      dbA.order_items.filter
        (fun it => !decide (it.order_id = orderIdA.data)))) :=
  ⟨⟨orderRowA, by decide, by decide⟩,
   c5_updateOrder_replaces dbA orderIdA.data [mochaItem] 9
     ⟨orderRowA, by decide, by decide⟩⟩

/-- A receipt whose stated total equals the sum of its item prices. -/
def receiptA : OrderReceipt :=
  { rkind := .order_complete, customer_name := none, items := [latteItem],
    total_price := 7 }

/-- The uuid assigned to the saved order in the witness. -/
def newIdA : String := "66666666-7777-8888-9999-000000000000"

/-- Witness for C8: with the stated total equal to the item sum, the
stored total is that sum; the update path stores the stated total for the
matching order. -/
theorem c8_witness :
    (receiptA.total_price =
      (receiptA.items.map (fun i => i.item_price)).sum) ∧
    ((saveOrder dbA receiptA newIdA.data).2.total_price =
      (receiptA.items.map (fun i => i.item_price)).sum) ∧
    ({ orderRowA with total_price := receiptA.total_price } ∈
        (updateOrder dbA orderIdA.data receiptA.items
          receiptA.total_price).orders ∧
      { orderRowA with total_price := receiptA.total_price }.id =
        orderIdA.data ∧
      { orderRowA with total_price := receiptA.total_price }.total_price =
        receiptA.total_price) :=
  ⟨by simp [receiptA, latteItem],
   (c8_stated_total_stored dbA receiptA newIdA.data).2.1
     (by simp [receiptA, latteItem]),
   by decide, by decide,
   (c8_stated_total_stored dbA receiptA newIdA.data).2.2 orderIdA.data
     { orderRowA with total_price := receiptA.total_price }
     (by decide) (by decide)⟩

/-! ### Claim C2 — the early speech trigger -/

/-- Invariant of the streaming loop: before the early trigger has fired no
speech call exists; at most one call is ever issued; and every early call
speaks `stripReceiptBlock(fullContent).trim()` of a snapshot of at least
100 characters. -/
def callsOk (a : SAcc) : Prop :=
  (a.ttsStarted = false → a.calls = []) ∧
  a.calls.length ≤ 1 ∧
  ∀ c ∈ a.calls, c.early = true →
    (c.text = jsTrim (stripReceiptBlock c.snapshot) ∧ 100 ≤ c.snapshot.length)

/-- One streaming step preserves the invariant. -/
theorem streamStep_callsOk (vm mu : Bool) (a : SAcc) (ch : List Char)
    (h : callsOk a) : callsOk (streamStep vm mu a ch) := by
  obtain ⟨h1, h2, h3⟩ := h
  unfold streamStep
  by_cases hc : (a.ttsStarted = false ∧ vm = true ∧ mu = false ∧
      100 ≤ (a.full ++ ch).length)
  · rw [if_pos hc]
    have hcalls : a.calls = [] := h1 hc.1
    refine ⟨?_, ?_, ?_⟩
    · intro hf
      exact absurd hf (by simp)
    · by_cases he : jsTrim (stripReceiptBlock (a.full ++ ch)) = [] <;>
        simp [hcalls, he]
    · intro c hcmem hce
      rw [hcalls] at hcmem
      by_cases he : jsTrim (stripReceiptBlock (a.full ++ ch)) = []
      · simp [he] at hcmem
      · simp [he] at hcmem
        subst hcmem
        exact ⟨rfl, hc.2.2.2⟩
  · rw [if_neg hc]
    exact ⟨h1, h2, h3⟩

/-- Folding any chunk list from an invariant-satisfying accumulator keeps
the invariant. -/
theorem streamFold_callsOk_aux (vm mu : Bool) :
    ∀ (chunks : List (List Char)) (a : SAcc), callsOk a →
      callsOk (chunks.foldl (streamStep vm mu) a)
  | [], _, h => h
  | ch :: rest, a, h =>
    streamFold_callsOk_aux vm mu rest (streamStep vm mu a ch)
      (streamStep_callsOk vm mu a ch h)

/-- The whole streaming fold satisfies the invariant. -/
theorem streamFold_callsOk (vm mu : Bool) (chunks : List (List Char)) :
    callsOk (streamFold vm mu chunks) :=
  streamFold_callsOk_aux vm mu chunks ⟨[], false, []⟩
    ⟨fun _ => rfl, by simp, by simp⟩

/-- C2 (amended): in a streamed turn, at most one speech-start call is
issued in total (exactly one when the early trigger fires with non-empty
stripped text), and every early call speaks
`stripReceiptBlock(fullContent).trim()` of an at-least-100-character
snapshot. The block is actually removed from the spoken text only when its
closing fence has already arrived (see the counterexample): with a
partial/absent closing fence `RECEIPT_REGEX` does not match and the text
is passed through unstripped. -/
theorem c2_at_most_one_speech_start (vm mu : Bool)
    (chunks : List (List Char)) :
    (streamTurn vm mu chunks).calls.length ≤ 1 ∧
    ∀ c ∈ (streamTurn vm mu chunks).calls, c.early = true →
      (c.text = jsTrim (stripReceiptBlock c.snapshot) ∧
       100 ≤ c.snapshot.length) := by
  have hfold := streamFold_callsOk vm mu chunks
  obtain ⟨h1, h2, h3⟩ := hfold
  unfold streamTurn
  by_cases hnil : chunks = []
  · rw [if_pos hnil]
    exact ⟨h2, h3⟩
  · rw [if_neg hnil]
    by_cases hpost : ((streamFold vm mu chunks).ttsStarted = false ∧
        vm = true ∧ mu = false ∧ postText (streamFold vm mu chunks) ≠ [])
    · rw [if_pos hpost]
      have hcalls : (streamFold vm mu chunks).calls = [] := h1 hpost.1
      refine ⟨?_, ?_⟩
      · simp [hcalls]
      · intro c hcmem hce
        simp [hcalls] at hcmem
        rw [hcmem] at hce
        exact absurd hce (by simp)
    · rw [if_neg hpost]
      exact ⟨h2, h3⟩

/-- The first ~64 characters streamed in the early-trigger counterexample
(below the threshold, no fence yet). -/
def chunkOne : String :=
  "Great choice, friend! Let me get that order started for you now."

/-- The second chunk: crosses the 100-character threshold while the
receipt fence is still open (no closing fence has arrived). -/
def chunkTwo : String :=
  "Here is your receipt. ```json\n\x7b \"type\": \"order_complete\", \"items\": ["

/-- C2 counterexample: with voice mode on and audio unmuted, the stream
[chunkOne, chunkTwo] crosses the threshold while the receipt block's
closing fence has not yet arrived; exactly one speech-start call is made,
but its text still CONTAINS the receipt fencing (` ```json ... `), because
`stripReceiptBlock`'s regex requires a complete closing fence and passes a
partial block through unchanged — contradicting the claim that the spoken
text excludes any receipt fencing even mid-fence. -/
theorem c2_open_fence_not_stripped :
    (streamTurn true false [chunkOne.data, chunkTwo.data]).calls.length = 1 ∧
    (streamTurn true false [chunkOne.data, chunkTwo.data]).calls.map
      (fun c => containsSeq fenceOpen.data c.text) = [true] := by
  decide

/-- The single early call of the counterexample stream. -/
def earlyCall : CallRec :=
  ((streamTurn true false [chunkOne.data, chunkTwo.data]).calls).headD
    ⟨[], [], false⟩

/-- Witness for C2 (amended) at the concrete two-chunk stream. -/
theorem c2_witness :
    (earlyCall ∈ (streamTurn true false [chunkOne.data, chunkTwo.data]).calls ∧
     earlyCall.early = true) ∧
    (earlyCall.text = jsTrim (stripReceiptBlock earlyCall.snapshot) ∧
     100 ≤ earlyCall.snapshot.length) :=
  ⟨⟨by decide, by decide⟩,
   (c2_at_most_one_speech_start true false [chunkOne.data, chunkTwo.data]).2
     earlyCall (by decide) (by decide)⟩

/-! ### Claim C9 — the silence guard -/

/-- The timer bookkeeping invariant: the number of live (scheduled,
neither fired nor cancelled) silence timeouts is 1 exactly when the ref
holds a live timer, else 0. -/
def timerInv (s : Ctrl) : Prop :=
  s.liveTimers = (if s.autoListenTimer = some true then 1 else 0)

/-- After `clearAutoListenTimer` the ref is null. -/
theorem clear_timer_ref (s : Ctrl) :
    (clearAutoListenTimer s).autoListenTimer = none := by
  unfold clearAutoListenTimer
  cases hx : s.autoListenTimer with
  | none => exact hx
  | some live => rfl

/-- `clearAutoListenTimer` preserves the timer invariant. -/
theorem timerInv_clear (s : Ctrl) (h : timerInv s) :
    timerInv (clearAutoListenTimer s) := by
  unfold timerInv at h ⊢
  unfold clearAutoListenTimer
  cases hx : s.autoListenTimer with
  | none => rw [hx] at h; simpa [hx] using h
  | some live =>
    rw [hx] at h
    cases live
    · simpa using h
    · simp at h; simp [h]

/-- After `clearAutoListenTimer` no silence timeout is live. -/
theorem clear_timer_live (s : Ctrl) (h : timerInv s) :
    (clearAutoListenTimer s).liveTimers = 0 := by
  have h1 := timerInv_clear s h
  unfold timerInv at h1
  rw [clear_timer_ref s] at h1
  simpa using h1

/-- `activateMic` preserves the timer invariant (cancel, then arm one). -/
theorem timerInv_activateMic (s : Ctrl) (h : timerInv s) :
    timerInv (activateMic s) := by
  have h1 := clear_timer_live s h
  unfold timerInv
  unfold activateMic startListening
  simp [h1]

/-- `handleSendEntry` preserves the timer invariant. -/
theorem timerInv_handleSendEntry (s : Ctrl) (h : timerInv s) :
    timerInv (handleSendEntry s) := by
  have h1 := clear_timer_live s h
  have h2 := clear_timer_ref s
  unfold timerInv
  unfold handleSendEntry ttsStop
  simp [h1, h2]

/-- `onFinalSpeech` preserves the timer invariant. -/
theorem timerInv_onFinalSpeech (s : Ctrl) (t : List Char) (h : timerInv s) :
    timerInv (onFinalSpeech s t) := by
  unfold onFinalSpeech
  split_ifs with h1
  · exact timerInv_handleSendEntry s h
  · exact h

/-- `stopListening` preserves the timer invariant. -/
theorem timerInv_stopListening (s : Ctrl) (h : timerInv s) :
    timerInv (stopListening s) := by
  unfold stopListening
  split_ifs with h1 h2
  · exact timerInv_onFinalSpeech _ _ h
  · exact h
  · exact h

/-- `timerFire` preserves the timer invariant (the fired timeout is no
longer live; the ref keeps a stale id). -/
theorem timerInv_timerFire (s : Ctrl) (h : timerInv s) :
    timerInv (timerFire s) := by
  unfold timerFire
  split_ifs with hx
  · apply timerInv_stopListening
    unfold timerInv at h ⊢
    rw [hx] at h
    simp at h
    simp [h]
  · exact h

/-- `onTtsEnd` preserves the timer invariant. -/
theorem timerInv_onTtsEnd (s : Ctrl) (h : timerInv s) :
    timerInv (onTtsEnd s) := by
  unfold onTtsEnd
  split_ifs with h1 h2 h3
  · exact h
  · exact h
  · exact h
  · exact timerInv_activateMic s h

/-- The `finally` drain preserves the timer invariant. -/
theorem timerInv_sendFinally (s : Ctrl) (h : timerInv s) :
    timerInv (sendFinally s) := by
  unfold sendFinally
  split_ifs with h1
  · exact timerInv_activateMic _ h
  · exact h

/-- `handleStartListening` preserves the timer invariant (the manual path
arms no timer). -/
theorem timerInv_handleStartListening (s : Ctrl) (h : timerInv s) :
    timerInv (handleStartListening s) := by
  have h1 := clear_timer_live s h
  have h2 := clear_timer_ref s
  unfold timerInv
  unfold handleStartListening startListening ttsStop
  simp [h1, h2]

/-- `handleNewOrder` preserves the timer invariant. -/
theorem timerInv_handleNewOrder (s : Ctrl) (h : timerInv s) :
    timerInv (handleNewOrder s) := by
  have h1 := clear_timer_live s h
  have h2 := clear_timer_ref s
  unfold timerInv
  unfold handleNewOrder ttsStop
  simp [h1, h2]

/-- `receiptHandled` preserves the timer invariant. -/
theorem timerInv_receiptHandled (s : Ctrl) (h : timerInv s) :
    timerInv (receiptHandled s) := by
  unfold receiptHandled
  apply timerInv_stopListening
  apply timerInv_clear
  exact h

/-- Every controller event preserves the timer invariant. -/
theorem timerInv_cstep (s : Ctrl) (e : CEvent) (h : timerInv s) :
    timerInv (cstep s e) := by
  cases e with
  | startListen => exact timerInv_handleStartListening s h
  | stopListen => exact timerInv_stopListening s h
  | micFinal t =>
    show timerInv (if s.micSession then
      { s with micFinalBuffer := s.micFinalBuffer ++ t } else s)
    split_ifs with h1
    · unfold timerInv at h ⊢; exact h
    · exact h
  | timerFire => exact timerInv_timerFire s h
  | ttsEnd => exact timerInv_onTtsEnd s h
  | sendEntry =>
    have h1 := timerInv_handleSendEntry s h
    unfold timerInv at h1 ⊢
    exact h1
  | receiptDone => exact timerInv_receiptHandled s h
  | sendFinally => exact timerInv_sendFinally s h
  | newOrder => exact timerInv_handleNewOrder s h
  | modifyOrder =>
    show timerInv (handleModifyOrder s)
    unfold handleModifyOrder
    unfold timerInv at h ⊢
    exact h
  | toggleMute =>
    show timerInv (toggleMute s)
    unfold toggleMute
    split_ifs with h1
    · unfold ttsStop; unfold timerInv at h ⊢; exact h
    · unfold timerInv at h ⊢; exact h

/-- Any event trace preserves the timer invariant. -/
theorem timerInv_crun : ∀ (evs : List CEvent) (s : Ctrl), timerInv s →
    timerInv (crun s evs)
  | [], _, h => h
  | e :: rest, s, h =>
    timerInv_crun rest (cstep s e) (timerInv_cstep s e h)

/-- C9: (a) along every event trace from the initial state at most one
silence-guard timeout is ever live — `activateMic` always cancels before
arming, and the manual listening path arms none; (b) when the 5-second
timeout expires with an empty (no final transcript) buffer, listening
stops and the mic session is torn down exactly as a manual
`stopListening` would — same mic flags, and no turn is started, no
message appended, no further mic activation. -/
theorem c9_silence_guard :
    (∀ evs : List CEvent, (crun initCtrl evs).liveTimers ≤ 1) ∧
    (∀ s : Ctrl, jsTrim s.micFinalBuffer = [] →
      s.autoListenTimer = some true →
      ((timerFire s).micListening = false ∧
       (timerFire s).micSession = false ∧
       (timerFire s).turnsStarted = s.turnsStarted ∧
       (timerFire s).messagesCount = s.messagesCount ∧
       (timerFire s).micActivations = s.micActivations ∧
       (timerFire s).micListening = (stopListening s).micListening ∧
       (timerFire s).micSession = (stopListening s).micSession ∧
       (timerFire s).turnsStarted = (stopListening s).turnsStarted ∧
       (timerFire s).messagesCount = (stopListening s).messagesCount)) := by
  constructor
  · intro evs
    have h := timerInv_crun evs initCtrl (by unfold timerInv initCtrl; simp)
    unfold timerInv at h
    rw [h]
    split_ifs <;> omega
  · intro s hbuf htimer
    unfold timerFire
    rw [if_pos htimer]
    unfold stopListening
    by_cases hm : s.micSession = true <;>
      simp [hm, hbuf]

/-- The state right after an automatic mic activation: listening with an
armed silence timer and an empty transcript buffer. -/
def armedCtrl : Ctrl := activateMic initCtrl

/-- Witness for C9 at the concrete armed state. -/
theorem c9_witness :
    jsTrim armedCtrl.micFinalBuffer = [] ∧
    armedCtrl.autoListenTimer = some true ∧
    ((timerFire armedCtrl).micListening = false ∧
     (timerFire armedCtrl).micSession = false ∧
     (timerFire armedCtrl).turnsStarted = armedCtrl.turnsStarted ∧
     (timerFire armedCtrl).messagesCount = armedCtrl.messagesCount ∧
     (timerFire armedCtrl).micActivations = armedCtrl.micActivations ∧
     (timerFire armedCtrl).micListening = (stopListening armedCtrl).micListening ∧
     (timerFire armedCtrl).micSession = (stopListening armedCtrl).micSession ∧
     (timerFire armedCtrl).turnsStarted = (stopListening armedCtrl).turnsStarted ∧
     (timerFire armedCtrl).messagesCount = (stopListening armedCtrl).messagesCount) :=
  ⟨by decide, by decide, c9_silence_guard.2 armedCtrl (by decide) (by decide)⟩
